import Mathlib

/-!
Verification of the `client/backend.go` IAM backend client.

The Go source is shallowly embedded: the pure request-building and
response-handling logic of `call`, the endpoint wrapper methods, and the
constructor `NewIAMBackendClient` become Lean functions.  The HTTP
transport itself is abstracted away: a call's observable transport
outcome is the triple (transport errors, HTTP status code, parsed
envelope) that `gorequest`'s `EndStruct` hands back to `call`.
-/

set_option maxRecDepth 4000

/-- A JSON value, used both for request payloads and for the `data`
field of response envelopes. -/
inductive Json where
  | null : Json
  | bool : Bool → Json
  | num : Int → Json
  | str : String → Json
  | arr : List Json → Json
  | obj : List (String × Json) → Json

/-- HTTP method, from the `Method` string type of backend.go; the source
only ever constructs the values `POST` and `GET`. -/
inductive Method where
  | POST : Method
  | GET : Method
deriving DecidableEq

/-- The protocol version constant `bkIAMVersion` of backend.go. -/
def bkIAMVersion : String := "1"

/-- `IAMBackendBaseResponse`: the uniform response envelope
`(code, message, data)`.  The Go `Data` field is a `json.RawMessage`;
here it is the parsed JSON sub-document, or `none` when the field was
absent from the body (Go leaves the raw message nil in that case). -/
structure IAMBackendBaseResponse where
  Code : Int
  Message : String
  Data : Option Json

/-- The client struct `iamBackendClient` of backend.go. -/
structure iamBackendClient where
  Host : String
  IsAPIGateway : Bool
  System : String
  appCode : String
  appSecret : String
  isApiDebugEnabled : Bool
  isApiForceEnabled : Bool

/-- Insert into a string-keyed association map, replacing an existing
binding for the key (Go map assignment semantics). -/
def mapInsert {β : Type} : List (String × β) → String → β → List (String × β)
  | [], k, v => [(k, v)]
  | (k1, v1) :: rest, k, v =>
      if k1 = k then (k, v) :: rest else (k1, v1) :: mapInsert rest k v

/-- Build a Go map from JSON object fields: later duplicate keys
overwrite earlier ones, as in `encoding/json` decoding into a map. -/
def objToMap (fields : List (String × Json)) : List (String × Json) :=
  fields.foldl (fun m kv => mapInsert m kv.1 kv.2) []

/-- The behaviour of `json.Unmarshal(data, &m)` for a destination of
type `map[string]interface` with the given raw `data`: a nil raw
message (absent `data` field) fails, a JSON object decodes to a map,
JSON `null` leaves the map nil (observationally the empty map), and any
other JSON value is a type mismatch. -/
def decodeMap : Option Json → Except String (List (String × Json))
  | none => Except.error "unexpected end of JSON input"
  | some Json.null => Except.ok []
  | some (Json.obj fields) => Except.ok (objToMap fields)
  | some _ => Except.error "json: cannot unmarshal value into map"

/-- The distinct error shapes that `call` can return, carrying exactly
the data that the corresponding `fmt.Errorf` in backend.go interpolates:
transport errors (line 189), a non-200 status without body annotation
(line 192), a non-200 status annotated with the envelope's code and
message (line 194), a non-zero envelope code (line 201), and a `data`
decode failure wrapping the decode error and the raw payload
(line 206). -/
inductive CallError where
  | transportErr : List String → CallError
  | statusNotOK : Int → CallError
  | statusNotOKWithBody : Int → Int → String → CallError
  | envelopeErr : Int → String → CallError
  | decodeErr : String → Option Json → CallError

/-- Whether a `call` error carries the given envelope code and message
verbatim (the only two error shapes that interpolate both). -/
def CallError.mentionsEnvelope : CallError → Int → String → Bool
  | CallError.statusNotOKWithBody _ c m, code, msg => c == code && m == msg
  | CallError.envelopeErr c m, code, msg => c == code && m == msg
  | _, _, _ => false

/-- Whether a call result is an error. -/
def isErr {ε α : Type} : Except ε α → Bool
  | Except.error _ => true
  | Except.ok _ => false

/-- Lift `CallError.mentionsEnvelope` to a call result. -/
def resultMentionsEnvelope {α : Type} : Except CallError α → Int → String → Bool
  | Except.error e, c, m => e.mentionsEnvelope c m
  | Except.ok _, _, _ => false

/-- The response-handling tail of `call` (backend.go lines 188-208),
starting from the transport outcome `(errs, statusCode, baseResult)`
delivered by `EndStruct`: transport errors first, then the non-200
check (annotated with the envelope code/message when the parsed message
is non-empty), then the envelope code check, then decoding of the
`data` field into the caller's destination shape via `decode`. -/
def call_handleResponse {α : Type} (decode : Option Json → Except String α)
    (errs : List String) (statusCode : Int)
    (baseResult : IAMBackendBaseResponse) : Except CallError α :=
  if errs.length ≠ 0 then
    Except.error (CallError.transportErr errs)
  else if statusCode ≠ 200 then
    if baseResult.Message ≠ "" then
      Except.error
        (CallError.statusNotOKWithBody statusCode baseResult.Code baseResult.Message)
    else
      Except.error (CallError.statusNotOK statusCode)
  else if baseResult.Code ≠ 0 then
    Except.error (CallError.envelopeErr baseResult.Code baseResult.Message)
  else
    match decode baseResult.Data with
    | Except.error e => Except.error (CallError.decodeErr e baseResult.Data)
    | Except.ok v => Except.ok v

/-- `callWithReturnMapData` (backend.go lines 211-222): runs the call
with a `map[string]interface` destination and returns the Go-style pair
`(data, err)`, with the empty map whenever the call errored. -/
def callWithReturnMapData (errs : List String) (statusCode : Int)
    (baseResult : IAMBackendBaseResponse) :
    List (String × Json) × Option CallError :=
  match call_handleResponse decodeMap errs statusCode baseResult with
  | Except.ok m => (m, none)
  | Except.error e => ([], some e)

/-- A Go `error` value as produced by the endpoint wrapper methods:
either an error propagated from `call`, or a fresh message created with
`errors.New`. -/
inductive GoError where
  | fromCall : CallError → GoError
  | errorsNew : String → GoError

/-- The response side of `GetToken` (backend.go lines 252-267): run the
call with a map destination, propagate its error, then extract the
`token` field, with a distinct error when the field is absent and
another when it is present but not a string. -/
def GetToken (errs : List String) (statusCode : Int)
    (baseResult : IAMBackendBaseResponse) : String × Option GoError :=
  match callWithReturnMapData errs statusCode baseResult with
  | (_, some e) => ("", some (GoError.fromCall e))
  | (data, none) =>
    match data.lookup "token" with
    | none => ("", some (GoError.errorsNew "no token in response body"))
    | some (Json.str s) => (s, none)
    | some _ => ("", some (GoError.errorsNew "token is not a valid string"))

/-- The response side of `GetApplyURL` (backend.go lines 351-367):
identical to `GetToken` but for the `url` field. -/
def GetApplyURL (errs : List String) (statusCode : Int)
    (baseResult : IAMBackendBaseResponse) : String × Option GoError :=
  match callWithReturnMapData errs statusCode baseResult with
  | (_, some e) => ("", some (GoError.fromCall e))
  | (data, none) =>
    match data.lookup "url" with
    | none => ("", some (GoError.errorsNew "no url in response body"))
    | some (Json.str s) => (s, none)
    | some _ => ("", some (GoError.errorsNew "url is not a valid string"))

/-- Lowercase hexadecimal digit, as used by `encoding/json`'s escaper. -/
def hexDigitChar (n : Nat) : Char :=
  if n < 10 then Char.ofNat (48 + n) else Char.ofNat (87 + n)

/-- Numeric value of a lowercase hexadecimal digit. -/
def hexCharVal (c : Char) : Nat :=
  if 48 ≤ c.toNat ∧ c.toNat ≤ 57 then c.toNat - 48
  else if 97 ≤ c.toNat ∧ c.toNat ≤ 102 then c.toNat - 87
  else 0

/-- How Go's `encoding/json` string encoder (with its default HTML
escaping) emits one character: `"` and backslash get a backslash
escape, newline, carriage return and tab get their two-character
escapes, the remaining control characters as well as the
HTML-significant characters and the line/paragraph separators get a
`u`-escape, and every other character is emitted as itself. -/
def goJSONEscapeChar (c : Char) : List Char :=
  if c = '"' then ['\\', '"']
  else if c = '\\' then ['\\', '\\']
  else if c = '\n' then ['\\', 'n']
  else if c = '\r' then ['\\', 'r']
  else if c = '\t' then ['\\', 't']
  else if c.toNat < 32 ∨ c = '<' ∨ c = '>' ∨ c = '&' ∨ c.toNat = 8232 ∨ c.toNat = 8233 then
    ['\\', 'u', hexDigitChar (c.toNat / 4096 % 16), hexDigitChar (c.toNat / 256 % 16),
      hexDigitChar (c.toNat / 16 % 16), hexDigitChar (c.toNat % 16)]
  else [c]

/-- Escape a character sequence for a JSON string literal. -/
def goJSONEscapeList : List Char → List Char
  | [] => []
  | c :: rest => goJSONEscapeChar c ++ goJSONEscapeList rest

/-- A JSON string literal: quote, escaped content, quote. -/
def goJSONQuote (s : String) : String :=
  String.mk ('"' :: (goJSONEscapeList s.data ++ ['"']))

/-- Lexicographic character-wise comparison, the order in which
`encoding/json` sorts the keys of a Go map. -/
def charListLt : List Char → List Char → Bool
  | [], [] => false
  | [], _ :: _ => true
  | _ :: _, [] => false
  | a :: as, b :: bs => if a < b then true else if b < a then false else charListLt as bs

/-- Insertion into a key-sorted association list. -/
def insertByKey {β : Type} (kv : String × β) : List (String × β) → List (String × β)
  | [] => [kv]
  | x :: xs => cond (charListLt kv.1.data x.1.data) (kv :: x :: xs) (x :: insertByKey kv xs)

/-- Sort an association list by key, as `encoding/json` sorts the keys
of a Go map before emitting it. -/
def sortByKey {β : Type} (l : List (String × β)) : List (String × β) :=
  l.foldr insertByKey []

/-- `json.Marshal` of a Go `map[string]string` value: a JSON object
with the keys in sorted order and all strings escaped. -/
def jsonMarshalStringMap (m : List (String × String)) : String :=
  "\x7b"
    ++ String.intercalate ","
      ((sortByKey m).map (fun kv => goJSONQuote kv.1 ++ ":" ++ goJSONQuote kv.2))
    ++ "\x7d"

/-- The header map built by `call` (backend.go lines 129-146): the
protocol version header always, then either the single combined
apigateway authorization header whose value is the JSON marshalling of
the credential map, or the two direct credential headers. -/
def callHeaders (c : iamBackendClient) : List (String × String) :=
  let headers : List (String × String) := [("X-Bk-IAM-Version", bkIAMVersion)]
  if c.IsAPIGateway then
    mapInsert headers "X-Bkapi-Authorization"
      (jsonMarshalStringMap [("bk_app_code", c.appCode), ("bk_app_secret", c.appSecret)])
  else
    mapInsert (mapInsert headers "X-BK-APP-CODE" c.appCode) "X-BK-APP-SECRET" c.appSecret

/-- How gorequest's `Query` renders one scalar payload value into a URL
query parameter value; only scalar values occur in the GET payloads
this SDK builds. -/
def queryValueString : Json → String
  | Json.str s => s
  | Json.num n => toString n
  | Json.bool b => cond b "true" "false"
  | _ => ""

/-- The URL query parameters contributed by an object payload. -/
def queryOf : Json → List (String × String)
  | Json.obj fields => fields.map (fun kv => (kv.1, queryValueString kv.2))
  | _ => []

/-- Query parameters contributed by the call payload (backend.go lines
156-161): a GET sends the payload as the query string, a POST sends it
as the request body. -/
def requestQueryData : Method → Json → List (String × String)
  | Method.GET, data => queryOf data
  | Method.POST, _ => []

/-- One second, in the nanoseconds of Go's `time.Duration`. -/
def second : Int := 1000000000

/-- The effective request timeout (backend.go lines 124-127): the
`timeout` argument is in seconds, and the zero value falls back to the
`defaultTimeout` constant. -/
def effectiveTimeoutNs (defaultTimeout timeout : Int) : Int :=
  if timeout = 0 then defaultTimeout else timeout * second

/-- An outgoing HTTP request as assembled by this client. -/
structure Request where
  timeoutNs : Int
  url : String
  queryParams : List (String × String)
  body : Option Json
  headers : List (String × String)

/-- The request-building half of `call` (backend.go lines 124-173):
effective timeout, headers by gateway mode, URL as host ++ path, the
payload routed to body or query by method, and the debug/force query
parameters appended when the corresponding flag is enabled. -/
def call_buildRequest (c : iamBackendClient) (defaultTimeout : Int) (method : Method)
    (path : String) (data : Json) (timeout : Int) : Request :=
  { timeoutNs := effectiveTimeoutNs defaultTimeout timeout
    url := c.Host ++ path
    queryParams :=
      requestQueryData method data
        ++ (if c.isApiDebugEnabled then [("debug", "true")] else [])
        ++ (if c.isApiForceEnabled then [("force", "true")] else [])
    body := match method with
      | Method.POST => some data
      | Method.GET => none
    headers := callHeaders c }

/-- `strings.TrimRight(host, "/")`: remove every trailing slash. -/
def trimRightSlash (s : String) : String :=
  String.mk ((s.data.reverse.dropWhile (fun c => c = '/')).reverse)

/-- Whether a string ends in a slash. -/
def endsInSlash (s : String) : Bool :=
  s.data.getLast? == some '/'

/-- `NewIAMBackendClient` (backend.go lines 101-116): trim trailing
slashes from the host, store the configuration, and fix the debug and
force flags from the process environment. -/
def NewIAMBackendClient (getenv : String → String) (host : String) (isAPIGateway : Bool)
    (system appCode appSecret : String) : iamBackendClient :=
  { Host := trimRightSlash host
    IsAPIGateway := isAPIGateway
    System := system
    appCode := appCode
    appSecret := appSecret
    isApiDebugEnabled := getenv "IAM_API_DEBUG" == "true" || getenv "BKAPP_IAM_API_DEBUG" == "true"
    isApiForceEnabled := getenv "IAM_API_FORCE" == "true" || getenv "BKAPP_IAM_API_FORCE" == "true" }

/-- The request sent by `Ping` (backend.go lines 238-248): a bare GET
on host ++ "/ping" with the default timeout and no headers set — it
bypasses the `call` pipeline entirely. -/
def Ping_request (c : iamBackendClient) (defaultTimeout : Int) : Request :=
  { timeoutNs := defaultTimeout
    url := c.Host ++ "/ping"
    queryParams := []
    body := none
    headers := [] }

/-- The `(method, path, payload, timeout)` quadruple an endpoint method
hands to `call`. -/
structure CallSpec where
  method : Method
  path : String
  data : Json
  timeout : Int

/-- The request built by the dispatcher for an endpoint invocation. -/
def dispatchRequest (c : iamBackendClient) (defaultTimeout : Int) (spec : CallSpec) : Request :=
  call_buildRequest c defaultTimeout spec.method spec.path spec.data spec.timeout

/-- Modelled from the spec: `util.Int64ArrayToString` (package `util`,
not under the sources provided) "serializes a sequence of integer
identifiers into a comma-joined string": the decimal representations of
the identifiers joined by the separator. -/
def Int64ArrayToString (xs : List Int) (sep : String) : String :=
  String.intercalate sep (xs.map toString)

/-- `GetToken`'s call (backend.go lines 253-254). -/
def GetToken_callSpec (c : iamBackendClient) : CallSpec :=
  { method := Method.GET
    path := "/api/v1/model/systems/" ++ c.System ++ "/token"
    data := Json.obj []
    timeout := 10 }

/-- `PolicyQuery`'s call (backend.go lines 270-274). -/
def PolicyQuery_callSpec (body : Json) : CallSpec :=
  { method := Method.POST, path := "/api/v1/policy/query", data := body, timeout := 10 }

/-- `V2PolicyQuery`'s call (backend.go lines 277-281). -/
def V2PolicyQuery_callSpec (system : String) (body : Json) : CallSpec :=
  { method := Method.POST
    path := "/api/v2/policy/systems/" ++ system ++ "/query/"
    data := body
    timeout := 10 }

/-- `PolicyQueryByActions`'s call (backend.go lines 284-288). -/
def PolicyQueryByActions_callSpec (body : Json) : CallSpec :=
  { method := Method.POST, path := "/api/v1/policy/query_by_actions", data := body, timeout := 10 }

/-- `V2PolicyQueryByActions`'s call (backend.go lines 291-295). -/
def V2PolicyQueryByActions_callSpec (system : String) (body : Json) : CallSpec :=
  { method := Method.POST
    path := "/api/v2/policy/systems/" ++ system ++ "/query_by_actions/"
    data := body
    timeout := 10 }

/-- `PolicyAuth`'s call (backend.go lines 298-302). -/
def PolicyAuth_callSpec (body : Json) : CallSpec :=
  { method := Method.POST, path := "/api/v1/policy/auth", data := body, timeout := 10 }

/-- `V2PolicyAuth`'s call (backend.go lines 305-309). -/
def V2PolicyAuth_callSpec (system : String) (body : Json) : CallSpec :=
  { method := Method.POST
    path := "/api/v2/policy/systems/" ++ system ++ "/auth/"
    data := body
    timeout := 10 }

/-- `PolicyAuthByResources`'s call (backend.go lines 312-316). -/
def PolicyAuthByResources_callSpec (body : Json) : CallSpec :=
  { method := Method.POST, path := "/api/v1/policy/auth_by_resources", data := body, timeout := 10 }

/-- `PolicyAuthByActions`'s call (backend.go lines 319-323). -/
def PolicyAuthByActions_callSpec (body : Json) : CallSpec :=
  { method := Method.POST, path := "/api/v1/policy/auth_by_actions", data := body, timeout := 10 }

/-- `PolicyGet`'s call (backend.go lines 326-330). -/
def PolicyGet_callSpec (c : iamBackendClient) (policyID : Int) : CallSpec :=
  { method := Method.GET
    path := "/api/v1/systems/" ++ c.System ++ "/policies/" ++ toString policyID
    data := Json.obj []
    timeout := 10 }

/-- `PolicyList`'s call (backend.go lines 333-337). -/
def PolicyList_callSpec (c : iamBackendClient) (body : Json) : CallSpec :=
  { method := Method.GET
    path := "/api/v1/systems/" ++ c.System ++ "/policies"
    data := body
    timeout := 10 }

/-- `PolicySubjects`'s call (backend.go lines 340-348): the query
payload maps `ids` to the comma-joined policy IDs. -/
def PolicySubjects_callSpec (c : iamBackendClient) (policyIDs : List Int) : CallSpec :=
  { method := Method.GET
    path := "/api/v1/systems/" ++ c.System ++ "/policies/-/subjects"
    data := Json.obj [("ids", Json.str (Int64ArrayToString policyIDs ","))]
    timeout := 10 }

/-- `GetApplyURL`'s call (backend.go lines 352-353). -/
def GetApplyURL_callSpec (body : Json) : CallSpec :=
  { method := Method.POST, path := "/api/v1/open/application/", data := body, timeout := 10 }

theorem length_ne_zero_iff_ne_nil {α : Type} (l : List α) : l.length ≠ 0 ↔ l ≠ [] := by
  cases l <;> simp

/-- Claim C2: for every call, a non-200 HTTP status always yields an
error, and when the body was parsed as an envelope (no transport or
parse errors) with a non-empty message, the error carries that
envelope's code and message. -/
theorem call_non200_returns_error {α : Type} (decode : Option Json → Except String α)
    (errs : List String) (statusCode : Int) (baseResult : IAMBackendBaseResponse)
    (hstatus : statusCode ≠ 200) :
    isErr (call_handleResponse decode errs statusCode baseResult) = true ∧
    (errs = [] → baseResult.Message ≠ "" →
      resultMentionsEnvelope (call_handleResponse decode errs statusCode baseResult)
        baseResult.Code baseResult.Message = true) := by
  constructor
  · rcases errs with _ | ⟨e, es⟩ <;>
      by_cases hm : baseResult.Message = "" <;>
        simp [call_handleResponse, hstatus, hm, isErr]
  · intro herrs hm
    subst herrs
    simp [call_handleResponse, hstatus, hm, resultMentionsEnvelope,
      CallError.mentionsEnvelope]

theorem call_non200_returns_error_witness :
    isErr (call_handleResponse decodeMap [] 500 ⟨3, "fail", none⟩) = true ∧
    resultMentionsEnvelope (call_handleResponse decodeMap [] 500 ⟨3, "fail", none⟩)
      3 "fail" = true :=
  have h := call_non200_returns_error decodeMap [] 500 ⟨3, "fail", none⟩ (by decide)
  ⟨h.1, h.2 rfl (by decide)⟩

/-- Claim C1, counterexample: an envelope with non-zero code `7` and
empty message arriving with HTTP status 500 produces the bare status
error, which does not carry the envelope code. -/
theorem call_nonzero_code_counterexample :
    (7 : Int) ≠ 0 ∧
    call_handleResponse decodeMap [] 500 ⟨7, "", some Json.null⟩ =
      Except.error (CallError.statusNotOK 500) ∧
    resultMentionsEnvelope (call_handleResponse decodeMap [] 500 ⟨7, "", some Json.null⟩)
      7 "" = false :=
  ⟨by decide, rfl, rfl⟩

/-- Claim C1 as amended: for a call whose body parsed as an envelope
with non-zero code, the returned error carries that code and message
verbatim whenever the HTTP status is 200 or the envelope message is
non-empty (when the status differs from 200 and the message is empty,
only the bare status error is returned). -/
theorem call_nonzero_code_error_mentions {α : Type}
    (decode : Option Json → Except String α)
    (errs : List String) (statusCode : Int) (baseResult : IAMBackendBaseResponse)
    (herrs : errs = []) (hcode : baseResult.Code ≠ 0)
    (h : statusCode = 200 ∨ baseResult.Message ≠ "") :
    resultMentionsEnvelope (call_handleResponse decode errs statusCode baseResult)
      baseResult.Code baseResult.Message = true := by
  subst herrs
  by_cases hs : statusCode = 200
  · subst hs
    simp [call_handleResponse, hcode, resultMentionsEnvelope, CallError.mentionsEnvelope]
  · rcases h with h | h
    · exact absurd h hs
    · simp [call_handleResponse, hs, h, resultMentionsEnvelope, CallError.mentionsEnvelope]

theorem call_nonzero_code_error_mentions_witness :
    resultMentionsEnvelope
      (call_handleResponse decodeMap [] 200 ⟨42, "oops", some Json.null⟩) 42 "oops" = true :=
  call_nonzero_code_error_mentions decodeMap [] 200 ⟨42, "oops", some Json.null⟩
    rfl (by decide) (Or.inl rfl)

/-- Claim C8: on HTTP 200 with envelope code 0, the `data` field is
decoded into the caller's destination shape and returned without error;
a decode failure yields an error wrapping the decode error together
with the raw payload, and the map-returning wrapper then hands the
caller the empty map. -/
theorem call_success_decodes_data {α : Type} (decode : Option Json → Except String α)
    (errs : List String) (statusCode : Int) (baseResult : IAMBackendBaseResponse)
    (herrs : errs = []) (hstatus : statusCode = 200) (hcode : baseResult.Code = 0) :
    (∀ v, decode baseResult.Data = Except.ok v →
      call_handleResponse decode errs statusCode baseResult = Except.ok v) ∧
    (∀ e, decode baseResult.Data = Except.error e →
      call_handleResponse decode errs statusCode baseResult =
        Except.error (CallError.decodeErr e baseResult.Data)) ∧
    (∀ e, decodeMap baseResult.Data = Except.error e →
      callWithReturnMapData errs statusCode baseResult =
        ([], some (CallError.decodeErr e baseResult.Data))) := by
  subst herrs; subst hstatus
  refine ⟨?_, ?_, ?_⟩ <;> intro x hx <;>
    simp [call_handleResponse, callWithReturnMapData, hcode, hx]

theorem call_success_decodes_data_witness :
    call_handleResponse decodeMap [] 200 ⟨0, "", some (Json.obj [("k", Json.num 1)])⟩ =
      Except.ok [("k", Json.num 1)] ∧
    callWithReturnMapData [] 200 ⟨0, "", some (Json.num 3)⟩ =
      ([], some (CallError.decodeErr "json: cannot unmarshal value into map"
        (some (Json.num 3)))) :=
  ⟨(call_success_decodes_data decodeMap [] 200
      ⟨0, "", some (Json.obj [("k", Json.num 1)])⟩ rfl rfl rfl).1 _ rfl,
   (call_success_decodes_data decodeMap [] 200
      ⟨0, "", some (Json.num 3)⟩ rfl rfl rfl).2.2 _ rfl⟩

/-- Claim C5: for every successfully decoded response mapping,
`GetToken` returns the `token` field exactly when present as a string,
a distinct error when absent, and a different distinct error when
present but not a string; `GetApplyURL` mirrors this for `url`. -/
theorem getToken_getApplyURL_field_extraction
    (errs : List String) (statusCode : Int) (baseResult : IAMBackendBaseResponse)
    (m : List (String × Json))
    (herrs : errs = []) (hstatus : statusCode = 200) (hcode : baseResult.Code = 0)
    (hdec : decodeMap baseResult.Data = Except.ok m) :
    ((∀ s, m.lookup "token" = some (Json.str s) →
        GetToken errs statusCode baseResult = (s, none)) ∧
     (m.lookup "token" = none →
        GetToken errs statusCode baseResult =
          ("", some (GoError.errorsNew "no token in response body"))) ∧
     (∀ v, m.lookup "token" = some v → (∀ s, v ≠ Json.str s) →
        GetToken errs statusCode baseResult =
          ("", some (GoError.errorsNew "token is not a valid string")))) ∧
    ((∀ s, m.lookup "url" = some (Json.str s) →
        GetApplyURL errs statusCode baseResult = (s, none)) ∧
     (m.lookup "url" = none →
        GetApplyURL errs statusCode baseResult =
          ("", some (GoError.errorsNew "no url in response body"))) ∧
     (∀ v, m.lookup "url" = some v → (∀ s, v ≠ Json.str s) →
        GetApplyURL errs statusCode baseResult =
          ("", some (GoError.errorsNew "url is not a valid string")))) ∧
    ("no token in response body" ≠ "token is not a valid string") ∧
    ("no url in response body" ≠ "url is not a valid string") := by
  subst herrs; subst hstatus
  have hcall : callWithReturnMapData [] 200 baseResult = (m, none) := by
    simp [callWithReturnMapData, call_handleResponse, hcode, hdec]
  refine ⟨⟨?_, ?_, ?_⟩, ⟨?_, ?_, ?_⟩, by decide, by decide⟩
  · intro s hs
    simp [GetToken, hcall, hs]
  · intro h0
    simp [GetToken, hcall, h0]
  · intro v hv hns
    cases v
    case str s => exact absurd rfl (hns s)
    all_goals simp [GetToken, hcall, hv]
  · intro s hs
    simp [GetApplyURL, hcall, hs]
  · intro h0
    simp [GetApplyURL, hcall, h0]
  · intro v hv hns
    cases v
    case str s => exact absurd rfl (hns s)
    all_goals simp [GetApplyURL, hcall, hv]

theorem getToken_getApplyURL_field_extraction_witness :
    GetToken [] 200 ⟨0, "", some (Json.obj [("token", Json.str "t0k")])⟩ = ("t0k", none) ∧
    GetApplyURL [] 200 ⟨0, "", some (Json.obj [])⟩ =
      ("", some (GoError.errorsNew "no url in response body")) ∧
    GetToken [] 200 ⟨0, "", some (Json.obj [("token", Json.num 5)])⟩ =
      ("", some (GoError.errorsNew "token is not a valid string")) :=
  ⟨(getToken_getApplyURL_field_extraction [] 200
      ⟨0, "", some (Json.obj [("token", Json.str "t0k")])⟩
      [("token", Json.str "t0k")] rfl rfl rfl rfl).1.1 "t0k" rfl,
   (getToken_getApplyURL_field_extraction [] 200
      ⟨0, "", some (Json.obj [])⟩ [] rfl rfl rfl rfl).2.1.2.1 rfl,
   (getToken_getApplyURL_field_extraction [] 200
      ⟨0, "", some (Json.obj [("token", Json.num 5)])⟩
      [("token", Json.num 5)] rfl rfl rfl rfl).1.2.2 (Json.num 5) rfl
      (fun _ h => Json.noConfusion h)⟩

/-- Claim C4, counterexample: the request sent by the public `Ping`
operation carries no `X-Bk-IAM-Version` header at all — `Ping` bypasses
the dispatcher and sets no headers. -/
theorem ping_lacks_version_header_counterexample :
    (Ping_request
      (NewIAMBackendClient (fun _ => "") "http://iam.example.com" false "demo" "app" "secret")
      5000000000).headers.lookup "X-Bk-IAM-Version" = none := rfl

/-- Claim C4 as amended: every request built by the `call` dispatcher
(hence every public operation except `Ping`) carries the header
`X-Bk-IAM-Version` with value `"1"`; `Ping`'s request does not. -/
theorem call_request_carries_version_header (c : iamBackendClient) (defaultTimeout : Int)
    (method : Method) (path : String) (data : Json) (timeout : Int) :
    (call_buildRequest c defaultTimeout method path data timeout).headers.lookup
      "X-Bk-IAM-Version" = some "1" := by
  rcases c with ⟨host, gw, sys, ac, sec, dbg, frc⟩
  cases gw <;> rfl

/-- Claim C6: `PolicySubjects` issues a GET whose query payload maps
`ids` to the decimal representations of the policy IDs joined by
commas; in particular `[1, 2, 3]` yields the literal `"1,2,3"`. -/
theorem policySubjects_query_payload (c : iamBackendClient) (defaultTimeout : Int)
    (policyIDs : List Int) :
    (PolicySubjects_callSpec c policyIDs).method = Method.GET ∧
    (PolicySubjects_callSpec c policyIDs).data =
      Json.obj [("ids", Json.str (String.intercalate "," (policyIDs.map toString)))] ∧
    (dispatchRequest c defaultTimeout (PolicySubjects_callSpec c policyIDs)).queryParams.lookup
      "ids" = some (Int64ArrayToString policyIDs ",") ∧
    Int64ArrayToString [1, 2, 3] "," = "1,2,3" :=
  ⟨rfl, rfl, rfl, by decide⟩

/-- Claim C7: a zero `timeout` argument falls back to the default
timeout constant, a non-zero argument means that many seconds, and
every endpoint method dispatching through `call` passes a per-call
timeout of 10 seconds. -/
theorem endpoint_timeouts (c : iamBackendClient) (defaultTimeout t : Int)
    (system : String) (body : Json) (policyID : Int) (policyIDs : List Int)
    (ht : t ≠ 0) :
    effectiveTimeoutNs defaultTimeout 0 = defaultTimeout ∧
    effectiveTimeoutNs defaultTimeout t = t * second ∧
    (GetToken_callSpec c).timeout = 10 ∧
    (PolicyQuery_callSpec body).timeout = 10 ∧
    (V2PolicyQuery_callSpec system body).timeout = 10 ∧
    (PolicyQueryByActions_callSpec body).timeout = 10 ∧
    (V2PolicyQueryByActions_callSpec system body).timeout = 10 ∧
    (PolicyAuth_callSpec body).timeout = 10 ∧
    (V2PolicyAuth_callSpec system body).timeout = 10 ∧
    (PolicyAuthByResources_callSpec body).timeout = 10 ∧
    (PolicyAuthByActions_callSpec body).timeout = 10 ∧
    (PolicyGet_callSpec c policyID).timeout = 10 ∧
    (PolicyList_callSpec c body).timeout = 10 ∧
    (PolicySubjects_callSpec c policyIDs).timeout = 10 ∧
    (GetApplyURL_callSpec body).timeout = 10 :=
  ⟨by simp [effectiveTimeoutNs], by simp [effectiveTimeoutNs, ht],
   rfl, rfl, rfl, rfl, rfl, rfl, rfl, rfl, rfl, rfl, rfl, rfl, rfl⟩

theorem endpoint_timeouts_witness :
    effectiveTimeoutNs 5000000000 0 = 5000000000 ∧
    effectiveTimeoutNs 5000000000 10 = 10 * second ∧
    (PolicyQuery_callSpec (Json.obj [])).timeout = 10 :=
  have h := endpoint_timeouts
    (NewIAMBackendClient (fun _ => "") "h" false "s" "a" "b")
    5000000000 10 "demo" (Json.obj []) 1 [] (by decide)
  ⟨h.1, h.2.1, h.2.2.2.1⟩

/-- Claim C9, counterexample: with the debug flag false (empty
environment), `PolicyList` called with the payload `\x7b"debug":"true"\x7d`
— a caller-supplied body that the dispatcher sends as the GET query —
produces a request whose query parameters contain `debug=true` anyway,
so "when it is false it does not" fails on the program. -/
theorem debug_force_flags_counterexample :
    (NewIAMBackendClient (fun _ => "") "http://iam.example.com" false "demo" "app"
        "secret").isApiDebugEnabled = false ∧
    ("debug", "true") ∈
      (dispatchRequest
        (NewIAMBackendClient (fun _ => "") "http://iam.example.com" false "demo" "app"
          "secret")
        5000000000
        (PolicyList_callSpec
          (NewIAMBackendClient (fun _ => "") "http://iam.example.com" false "demo" "app"
            "secret")
          (Json.obj [("debug", Json.str "true")]))).queryParams :=
  ⟨rfl, by decide⟩

/-- Claim C9 as amended: the debug and force flags are fixed at client
construction from the process environment; when a flag is true the
outgoing query contains the corresponding parameter, and when it is
false the dispatcher adds none, so the parameter appears only if the
caller's own GET payload already contains that exact pair (as
`PolicyList`'s caller-supplied body can). -/
theorem debug_force_query_flags (getenv : String → String) (host : String)
    (isAPIGateway : Bool) (system appCode appSecret : String)
    (c : iamBackendClient) (defaultTimeout : Int) (method : Method) (path : String)
    (data : Json) (timeout : Int) :
    (NewIAMBackendClient getenv host isAPIGateway system appCode appSecret).isApiDebugEnabled
      = (getenv "IAM_API_DEBUG" == "true" || getenv "BKAPP_IAM_API_DEBUG" == "true") ∧
    (NewIAMBackendClient getenv host isAPIGateway system appCode appSecret).isApiForceEnabled
      = (getenv "IAM_API_FORCE" == "true" || getenv "BKAPP_IAM_API_FORCE" == "true") ∧
    (c.isApiDebugEnabled = true →
      ("debug", "true") ∈
        (call_buildRequest c defaultTimeout method path data timeout).queryParams) ∧
    (c.isApiDebugEnabled = false →
      ("debug", "true") ∉ requestQueryData method data →
      ("debug", "true") ∉
        (call_buildRequest c defaultTimeout method path data timeout).queryParams) ∧
    (c.isApiForceEnabled = true →
      ("force", "true") ∈
        (call_buildRequest c defaultTimeout method path data timeout).queryParams) ∧
    (c.isApiForceEnabled = false →
      ("force", "true") ∉ requestQueryData method data →
      ("force", "true") ∉
        (call_buildRequest c defaultTimeout method path data timeout).queryParams) := by
  refine ⟨rfl, rfl, ?_, ?_, ?_, ?_⟩
  · intro hflag
    cases hfrc : c.isApiForceEnabled <;>
      simp [call_buildRequest, hflag, hfrc]
  · intro hflag hdata
    cases hfrc : c.isApiForceEnabled <;>
      simp [call_buildRequest, hflag, hfrc, hdata]
  · intro hflag
    cases hdbg : c.isApiDebugEnabled <;>
      simp [call_buildRequest, hflag, hdbg]
  · intro hflag hdata
    cases hdbg : c.isApiDebugEnabled <;>
      simp [call_buildRequest, hflag, hdbg, hdata]

theorem debug_force_query_flags_witness :
    ("debug", "true") ∈
      (call_buildRequest
        (NewIAMBackendClient (fun v => if v = "IAM_API_DEBUG" then "true" else "")
          "http://iam.example.com" false "demo" "app" "secret")
        5000000000 Method.POST "/api/v1/policy/query" (Json.obj []) 10).queryParams ∧
    ("force", "true") ∉
      (call_buildRequest
        (NewIAMBackendClient (fun v => if v = "IAM_API_DEBUG" then "true" else "")
          "http://iam.example.com" false "demo" "app" "secret")
        5000000000 Method.POST "/api/v1/policy/query" (Json.obj []) 10).queryParams :=
  have h := debug_force_query_flags
    (fun v => if v = "IAM_API_DEBUG" then "true" else "")
    "http://iam.example.com" false "demo" "app" "secret"
    (NewIAMBackendClient (fun v => if v = "IAM_API_DEBUG" then "true" else "")
      "http://iam.example.com" false "demo" "app" "secret")
    5000000000 Method.POST "/api/v1/policy/query" (Json.obj []) 10
  ⟨h.2.2.1 rfl, h.2.2.2.2.2 rfl (by simp [requestQueryData])⟩

theorem head?_dropWhile_slash (l : List Char) :
    (l.dropWhile (fun c => c = '/')).head? ≠ some '/' := by
  induction l with
  | nil => simp
  | cons c cs ih =>
    by_cases h : c = '/'
    · simpa [List.dropWhile_cons, h] using ih
    · simp [List.dropWhile_cons, h]

theorem endsInSlash_trimRightSlash (s : String) : endsInSlash (trimRightSlash s) = false := by
  have h := head?_dropWhile_slash s.data.reverse
  simp only [endsInSlash, trimRightSlash, List.getLast?_reverse]
  exact beq_eq_false_iff_ne.mpr h

/-- Claim C10: the stored host is the input with all trailing slashes
removed, so it never ends in a slash, and every dispatcher URL as well
as `Ping`'s URL is exactly the trimmed host concatenated with the
endpoint path. -/
theorem host_trimming_invariant (getenv : String → String) (host : String)
    (isAPIGateway : Bool) (system appCode appSecret : String) (defaultTimeout : Int)
    (method : Method) (path : String) (data : Json) (timeout : Int) :
    (NewIAMBackendClient getenv host isAPIGateway system appCode appSecret).Host
      = trimRightSlash host ∧
    endsInSlash (NewIAMBackendClient getenv host isAPIGateway system appCode appSecret).Host
      = false ∧
    (call_buildRequest (NewIAMBackendClient getenv host isAPIGateway system appCode appSecret)
        defaultTimeout method path data timeout).url = trimRightSlash host ++ path ∧
    (Ping_request (NewIAMBackendClient getenv host isAPIGateway system appCode appSecret)
        defaultTimeout).url = trimRightSlash host ++ "/ping" :=
  ⟨rfl, endsInSlash_trimRightSlash host, rfl, rfl⟩

theorem data_mk (l : List Char) : (String.mk l).data = l := rfl

theorem hexCharVal_hexDigitChar : ∀ d : Nat, d < 16 → hexCharVal (hexDigitChar d) = d := by
  decide

/-- Decode one JSON string escape (the character after a backslash),
passing the decoded character and the remaining input to `k`. -/
def unescEscape (e : Char) (rest2 : List Char)
    (k : Char → List Char → Option (List Char × List Char)) :
    Option (List Char × List Char) :=
  if e = 'u' then
    match rest2 with
    | h1 :: h2 :: h3 :: h4 :: rest3 =>
        k (Char.ofNat (hexCharVal h1 * 4096 + hexCharVal h2 * 256
            + hexCharVal h3 * 16 + hexCharVal h4)) rest3
    | _ => none
  else if e = '"' then k '"' rest2
  else if e = '\\' then k '\\' rest2
  else if e = 'n' then k '\n' rest2
  else if e = 'r' then k '\x0d' rest2
  else if e = 't' then k '\t' rest2
  else none

/-- Split off the escape character and hand it to `unescEscape`. -/
def unescapeCont (rest : List Char)
    (k : Char → List Char → Option (List Char × List Char)) :
    Option (List Char × List Char) :=
  match rest with
  | [] => none
  | e :: rest2 => unescEscape e rest2 k

/-- Scan a character sequence up to the first unescaped quote, undoing
the JSON string escapes on the way (with a fuel bound on the number of
decoded characters): the inverse direction of `goJSONEscapeList`, used
to show that the marshalled credential object determines the
credentials. -/
def splitAtQuoteF : Nat → List Char → Option (List Char × List Char)
  | 0, _ => none
  | _ + 1, [] => none
  | fuel + 1, c :: rest =>
    if c = '"' then some ([], rest)
    else if c = '\\' then
      unescapeCont rest
        (fun ch rest2 =>
          (fun p => ((ch :: p.1 : List Char), p.2)) <$> splitAtQuoteF fuel rest2)
    else (fun p => ((c :: p.1 : List Char), p.2)) <$> splitAtQuoteF fuel rest

theorem splitAtQuoteF_escChar (n : Nat) (c : Char) (l : List Char) :
    splitAtQuoteF (n + 1) (goJSONEscapeChar c ++ l) =
      (fun p => ((c :: p.1 : List Char), p.2)) <$> splitAtQuoteF n l := by
  by_cases h1 : c = '"'
  · subst h1; rfl
  by_cases h2 : c = '\\'
  · subst h2; rfl
  by_cases h3 : c = '\n'
  · subst h3; rfl
  by_cases h4 : c = '\r'
  · subst h4; rfl
  by_cases h5 : c = '\t'
  · subst h5; rfl
  by_cases h6 : c.toNat < 32 ∨ c = '<' ∨ c = '>' ∨ c = '&' ∨ c.toNat = 8232 ∨ c.toNat = 8233
  · have hlt : c.toNat < 65536 := by
      rcases h6 with h | h | h | h | h | h
      · omega
      · subst h; decide
      · subst h; decide
      · subst h; decide
      · omega
      · omega
    rw [goJSONEscapeChar]
    simp only [if_neg h1, if_neg h2, if_neg h3, if_neg h4, if_neg h5, if_pos h6]
    have hstep : splitAtQuoteF (n + 1) (('\\' : Char) :: 'u'
        :: hexDigitChar (c.toNat / 4096 % 16) :: hexDigitChar (c.toNat / 256 % 16)
        :: hexDigitChar (c.toNat / 16 % 16) :: hexDigitChar (c.toNat % 16) :: l)
        = (fun p => ((Char.ofNat (hexCharVal (hexDigitChar (c.toNat / 4096 % 16)) * 4096
            + hexCharVal (hexDigitChar (c.toNat / 256 % 16)) * 256
            + hexCharVal (hexDigitChar (c.toNat / 16 % 16)) * 16
            + hexCharVal (hexDigitChar (c.toNat % 16))) :: p.1 : List Char), p.2))
          <$> splitAtQuoteF n l := rfl
    rw [List.cons_append, List.cons_append, List.cons_append, List.cons_append,
      List.cons_append, List.cons_append, List.nil_append, hstep,
      hexCharVal_hexDigitChar _ (by omega), hexCharVal_hexDigitChar _ (by omega),
      hexCharVal_hexDigitChar _ (by omega), hexCharVal_hexDigitChar _ (by omega)]
    have harith : c.toNat / 4096 % 16 * 4096 + c.toNat / 256 % 16 * 256
        + c.toNat / 16 % 16 * 16 + c.toNat % 16 = c.toNat := by omega
    rw [harith, Char.ofNat_toNat]
  · rw [goJSONEscapeChar]
    simp only [if_neg h1, if_neg h2, if_neg h3, if_neg h4, if_neg h5, if_neg h6]
    rw [List.cons_append, List.nil_append]
    simp only [splitAtQuoteF]
    rw [if_neg h1, if_neg h2]

theorem splitAtQuoteF_escList (s : List Char) : ∀ fuel rest, s.length < fuel →
    splitAtQuoteF fuel (goJSONEscapeList s ++ '"' :: rest) = some (s, rest) := by
  induction s with
  | nil =>
    intro fuel rest hf
    obtain ⟨n, rfl⟩ : ∃ n, fuel = n + 1 := ⟨fuel - 1, by omega⟩
    rfl
  | cons c cs ih =>
    intro fuel rest hf
    obtain ⟨n, rfl⟩ : ∃ n, fuel = n + 1 := ⟨fuel - 1, by omega⟩
    rw [goJSONEscapeList, List.append_assoc, splitAtQuoteF_escChar,
      ih n rest (by simp at hf; omega)]
    rfl

theorem jsonMarshal_auth_data (code secret : String) :
    (jsonMarshalStringMap [("bk_app_code", code), ("bk_app_secret", secret)]).data =
      Char.ofNat 123 :: '"' :: 'b' :: 'k' :: '_' :: 'a' :: 'p' :: 'p' :: '_'
        :: 'c' :: 'o' :: 'd' :: 'e' :: '"' :: ':' :: '"' ::
        (goJSONEscapeList code.data ++ ('"' :: ',' :: '"' :: 'b' :: 'k' :: '_'
          :: 'a' :: 'p' :: 'p' :: '_' :: 's' :: 'e' :: 'c' :: 'r' :: 'e' :: 't'
          :: '"' :: ':' :: '"' ::
          (goJSONEscapeList secret.data ++ ('"' :: [Char.ofNat 125])))) := by
  have hsort : sortByKey [("bk_app_code", code), ("bk_app_secret", secret)] =
      [("bk_app_code", code), ("bk_app_secret", secret)] := rfl
  have hk1 : goJSONEscapeList "bk_app_code".data = "bk_app_code".data := by decide
  have hk2 : goJSONEscapeList "bk_app_secret".data = "bk_app_secret".data := by decide
  rw [jsonMarshalStringMap, hsort]
  simp only [List.map, String.intercalate, String.intercalate.go, goJSONQuote,
    String.data_append, data_mk, hk1, hk2, List.cons_append, List.nil_append,
    List.append_assoc]

theorem marshal_auth_inj (c1 s1 c2 s2 : String)
    (h : jsonMarshalStringMap [("bk_app_code", c1), ("bk_app_secret", s1)] =
      jsonMarshalStringMap [("bk_app_code", c2), ("bk_app_secret", s2)]) :
    c1 = c2 ∧ s1 = s2 := by
  have hd := congrArg String.data h
  rw [jsonMarshal_auth_data, jsonMarshal_auth_data] at hd
  simp only [List.cons.injEq, true_and] at hd
  have h2 := congrArg (splitAtQuoteF (c1.data.length + c2.data.length + 1)) hd
  rw [splitAtQuoteF_escList _ _ _ (by omega), splitAtQuoteF_escList _ _ _ (by omega)] at h2
  simp only [Option.some.injEq, Prod.mk.injEq] at h2
  obtain ⟨hc, hrest⟩ := h2
  refine ⟨congrArg String.mk hc, ?_⟩
  simp only [List.cons.injEq, true_and] at hrest
  have h3 := congrArg (splitAtQuoteF (s1.data.length + s2.data.length + 1)) hrest
  rw [splitAtQuoteF_escList _ _ _ (by omega), splitAtQuoteF_escList _ _ _ (by omega)] at h3
  simp only [Option.some.injEq, Prod.mk.injEq] at h3
  exact congrArg String.mk h3.1

/-- Claim C3: a dispatcher request carries exactly one of two credential
header layouts, selected by the gateway-mode flag: with gateway mode, a
single combined header whose value is the JSON object holding exactly
the configured code and secret (the value determines them uniquely);
without gateway mode, the two direct credential headers with the
configured values and no combined header. -/
theorem auth_header_layout (c : iamBackendClient) (defaultTimeout : Int)
    (method : Method) (path : String) (data : Json) (timeout : Int) :
    (c.IsAPIGateway = true →
      (call_buildRequest c defaultTimeout method path data timeout).headers.lookup
          "X-Bkapi-Authorization" =
        some (jsonMarshalStringMap
          [("bk_app_code", c.appCode), ("bk_app_secret", c.appSecret)]) ∧
      (call_buildRequest c defaultTimeout method path data timeout).headers.lookup
          "X-BK-APP-CODE" = none ∧
      (call_buildRequest c defaultTimeout method path data timeout).headers.lookup
          "X-BK-APP-SECRET" = none ∧
      (∀ code1 secret1,
        jsonMarshalStringMap [("bk_app_code", code1), ("bk_app_secret", secret1)] =
          jsonMarshalStringMap [("bk_app_code", c.appCode), ("bk_app_secret", c.appSecret)] →
        code1 = c.appCode ∧ secret1 = c.appSecret)) ∧
    (c.IsAPIGateway = false →
      (call_buildRequest c defaultTimeout method path data timeout).headers.lookup
          "X-BK-APP-CODE" = some c.appCode ∧
      (call_buildRequest c defaultTimeout method path data timeout).headers.lookup
          "X-BK-APP-SECRET" = some c.appSecret ∧
      (call_buildRequest c defaultTimeout method path data timeout).headers.lookup
          "X-Bkapi-Authorization" = none) := by
  rcases c with ⟨host, gw, sys, ac, sec, dbg, frc⟩
  cases gw
  · exact ⟨fun h => Bool.noConfusion h, fun _ => ⟨rfl, rfl, rfl⟩⟩
  · exact ⟨fun _ => ⟨rfl, rfl, rfl, fun code1 secret1 h => marshal_auth_inj _ _ _ _ h⟩,
      fun h => Bool.noConfusion h⟩

theorem auth_header_layout_witness :
    (call_buildRequest
        (NewIAMBackendClient (fun _ => "") "http://iam.example.com" true "demo" "app" "secret")
        5000000000 Method.GET "/api/v1/policy/query" (Json.obj []) 10).headers.lookup
      "X-Bkapi-Authorization" =
      some "\x7b\"bk_app_code\":\"app\",\"bk_app_secret\":\"secret\"\x7d" ∧
    (call_buildRequest
        (NewIAMBackendClient (fun _ => "") "http://iam.example.com" false "demo" "app" "secret")
        5000000000 Method.GET "/api/v1/policy/query" (Json.obj []) 10).headers.lookup
      "X-BK-APP-CODE" = some "app" := by
  constructor
  · have h := ((auth_header_layout
      (NewIAMBackendClient (fun _ => "") "http://iam.example.com" true "demo" "app" "secret")
      5000000000 Method.GET "/api/v1/policy/query" (Json.obj []) 10).1 rfl).1
    rw [h]
    decide
  · exact ((auth_header_layout
      (NewIAMBackendClient (fun _ => "") "http://iam.example.com" false "demo" "app" "secret")
      5000000000 Method.GET "/api/v1/policy/query" (Json.obj []) 10).2 rfl).1
